import Mathlib

/-!
# NutriSnap: the meal and calorie handlers of `server.js`

A shallow embedding of the six request handlers of `src/server.js` and of the
two files they keep (`meals.json`, `calories.json`), followed by theorems about
them.

Modelling conventions.

* A file is identified with what `JSON.parse(fs.readFileSync(..))` makes of it:
  it is absent, it holds text that does not parse, or it holds a value.
  `meals.json` is taken to hold an array when it parses and `calories.json` an
  object, and the numbers in a file are finite, as in every file that
  `JSON.stringify` wrote.
* A request body is what `JSON.parse` makes of arbitrary JSON text: a number
  literal beyond the range of a double arrives as `Infinity` or `-Infinity`.
  `JSON.stringify` writes such a number as `null` (`stringify`).
* Finite numbers are exact rationals: the rounding of doubles is not modelled.
* Reads of an existing file and writes are taken to succeed.
* A response is its status code and the JSON text sent by `res.json`, read back
  as a JSON value.  An exception that leaves a handler is answered by the
  framework with status 500 and an error page.
* `String.prototype.toLowerCase`, `decodeURIComponent` and the conversion of a
  string or an array to a number are parameters of the model (`Builtins`).
-/

namespace NutriSnap

/-! ## JSON values -/

/-- A JSON value whose numbers are taken from `ν`. -/
inductive Value (ν : Type) where
  | null
  | bool (b : Bool)
  | num (x : ν)
  | str (s : String)
  | arr (xs : List (Value ν))
  | obj (kvs : List (String × Value ν))

/-- A number as `JSON.parse` yields it: finite, or one of the two infinities
that a literal beyond the range of a double becomes. -/
inductive Number where
  | finite (q : ℚ)
  | infinite (negative : Bool)

/-- A value that JSON text written by `JSON.stringify` holds: what a file of
the server contains and what `res.json` sends. -/
abbrev Json := Value ℚ

/-- A value that `JSON.parse` makes of a request body. -/
abbrev Parsed := Value Number

instance : Inhabited Json := ⟨Value.null⟩

mutual
/-- The text `JSON.stringify(v)` read back: a non-finite number is written as
`null`, everything else as it is. -/
def stringify : Parsed → Json
  | .null => .null
  | .bool b => .bool b
  | .num (.finite q) => .num q
  | .num (.infinite _) => .null
  | .str s => .str s
  | .arr xs => .arr (stringifyList xs)
  | .obj kvs => .obj (stringifyFields kvs)
/-- The members of an array, each through `stringify`. -/
def stringifyList : List Parsed → List Json
  | [] => []
  | x :: xs => stringify x :: stringifyList xs
/-- The properties of an object, each value through `stringify`. -/
def stringifyFields : List (String × Parsed) → List (String × Json)
  | [] => []
  | (k, v) :: kvs => (k, stringify v) :: stringifyFields kvs
end

mutual
/-- A value with finite numbers only, as a request can carry it. -/
def lift : Json → Parsed
  | .null => .null
  | .bool b => .bool b
  | .num q => .num (.finite q)
  | .str s => .str s
  | .arr xs => .arr (liftList xs)
  | .obj kvs => .obj (liftFields kvs)
/-- The members of an array, each through `lift`. -/
def liftList : List Json → List Parsed
  | [] => []
  | x :: xs => lift x :: liftList xs
/-- The properties of an object, each value through `lift`. -/
def liftFields : List (String × Json) → List (String × Parsed)
  | [] => []
  | (k, v) :: kvs => (k, lift v) :: liftFields kvs
end

/-- The own properties of an object made by `JSON.parse`, in the order listed. -/
abbrev Obj := List (String × Json)

/-- What a property read `o[k]` can yield on such an object. -/
inductive JSVal where
  | undefined
  | json (v : Json)
  | function
  | objectPrototype

/-- Built-in functions of the runtime that the handlers call. -/
structure Builtins where
  /-- The method `String.prototype.toLowerCase`. -/
  toLowerCase : String → String
  /-- The function `decodeURIComponent`; `none` when it throws `URIError`. -/
  decodeURIComponent : String → Option String
  /-- The conversion `ToNumber` on a string or on an array; `none` stands for
  `NaN` and for the two infinities. -/
  toNumber : Parsed → Option ℚ

/-- The test `!v` is false: `v` is neither `undefined`, `null`, `false`, `0`
nor the empty string. -/
def truthy : Option Parsed → Bool
  | none => false
  | some .null => false
  | some (.bool b) => b
  | some (.num (.finite q)) => decide (q ≠ 0)
  | some (.num (.infinite _)) => true
  | some (.str s) => decide (s ≠ "")
  | some (.arr _) => true
  | some (.obj _) => true

/-- The test `typeof v === "number"`. -/
def isNumber : Option Parsed → Bool
  | some (.num _) => true
  | _ => false

/-- The expression `v ?? null`. -/
def orNull : Option Parsed → Parsed
  | none => .null
  | some v => v

/-- The own property `k` of `o`, if it has one. -/
def ownGet : Obj → String → Option Json
  | [], _ => none
  | (k1, v) :: rest, k => if k1 = k then some v else ownGet rest k

/-- Define the own property `k` of `o` to be `v`: overwrite it where it is,
or add it. -/
def ownSet : Obj → String → Json → Obj
  | [], k, v => [(k, v)]
  | (k1, v1) :: rest, k, v =>
    if k1 = k then (k1, v) :: rest else (k1, v1) :: ownSet rest k v

/-- The names of the own properties of `o`. -/
def ownKeys (o : Obj) : List String := o.map Prod.fst

/-- The function-valued properties of `Object.prototype`. -/
def objectPrototypeMethods : List String :=
  ["constructor", "__defineGetter__", "__defineSetter__", "hasOwnProperty",
   "__lookupGetter__", "__lookupSetter__", "isPrototypeOf",
   "propertyIsEnumerable", "toString", "valueOf", "toLocaleString"]

/-- The read `o[k]`: an own property, else what `Object.prototype` has under
that name (its methods, and the accessor `__proto__`, which returns
`Object.prototype` itself). -/
def getProp (o : Obj) (k : String) : JSVal :=
  match ownGet o k with
  | some v => .json v
  | none =>
    if k = "__proto__" then .objectPrototype
    else if k ∈ objectPrototypeMethods then .function
    else .undefined

/-- The strict-mode assignment `o[k] = c` of a number, as the
`JSON.stringify` of line 107 then writes the object: an own property is
overwritten; otherwise the name `__proto__` reaches the setter of
`Object.prototype`, which ignores a number; any other name becomes a new own
property.  The number is written as `stringify` gives it. -/
def setProp (o : Obj) (k : String) (c : Number) : Obj :=
  match ownGet o k with
  | some _ => ownSet o k (stringify (.num c))
  | none => if k = "__proto__" then o else ownSet o k (stringify (.num c))

mutual
/-- The conversion of `v` to a string (in a template literal, or on the way to
a number) throws `TypeError`: an object whose own property `toString` hides the
inherited method, or an array holding such a value. -/
def toStringThrows {ν : Type} : Value ν → Bool
  | .obj kvs => (kvs.map Prod.fst).contains "toString"
  | .arr xs => anyToStringThrows xs
  | _ => false
/-- Some member of the list makes `toStringThrows` true. -/
def anyToStringThrows {ν : Type} : List (Value ν) → Bool
  | [] => false
  | x :: xs => toStringThrows x || anyToStringThrows xs
end

/-- The result of converting a value to a number. -/
inductive Coerced where
  | throws
  | notFinite
  | finite (q : ℚ)

/-- The conversion `ToNumber(v)` that the comparisons `>=`, `<` and `splice`
apply to the index; `notFinite` stands for `NaN` and for the two infinities. -/
def toNumber (js : Builtins) : Parsed → Coerced
  | .null => .finite 0
  | .bool b => .finite (if b then 1 else 0)
  | .num (.finite q) => .finite q
  | .num (.infinite _) => .notFinite
  | .str s => match js.toNumber (.str s) with
    | some q => .finite q
    | none => .notFinite
  | .arr xs =>
    if anyToStringThrows xs then .throws
    else match js.toNumber (.arr xs) with
      | some q => .finite q
      | none => .notFinite
  | .obj kvs => if toStringThrows (Value.obj kvs) then .throws else .notFinite

/-! ## Files -/

/-- The state of one file as the handlers can see it. -/
inductive FileState (α : Type) where
  | absent
  | garbage
  | holds (v : α)

/-- The two files of the server. -/
structure Disk where
  MEALS_FILE : FileState (List Json)
  CAL_FILE : FileState Obj

/-- The expression `JSON.parse(fs.readFileSync(F, "utf8"))`; `none` when it
throws. -/
def parseFile {α : Type} : FileState α → Option α
  | .holds v => some v
  | _ => none

/-- Lines 22-23: each file that does not exist is created empty. -/
def ensureFiles (d : Disk) : Disk :=
  { MEALS_FILE := match d.MEALS_FILE with
      | .absent => .holds []
      | f => f
    CAL_FILE := match d.CAL_FILE with
      | .absent => .holds []
      | f => f }

/-- The function `loadCalDB`: the parsed calorie file, or `{}` when reading or
parsing throws. -/
def loadCalDB (d : Disk) : Obj :=
  match parseFile d.CAL_FILE with
  | some db => db
  | none => []

/-! ## Responses -/

/-- The body of a response. -/
inductive Body where
  | json (v : Json)
  | errorPage

/-- A response: status code and body. -/
structure Response where
  status : Nat
  body : Body

/-- The call `res.json(v)` with the default status. -/
def resJson (v : Json) : Response := ⟨200, .json v⟩

/-- The call `res.status(n).json(v)`. -/
def resStatusJson (n : Nat) (v : Json) : Response := ⟨n, .json v⟩

/-- The answer of the framework to an exception that leaves a handler. -/
def uncaught : Response := ⟨500, .errorPage⟩

/-- The object `{ success: true }`. -/
def successBody : Json := .obj [("success", .bool true)]

/-- The object `{ error: msg }`. -/
def errorBody (msg : String) : Json := .obj [("error", .str msg)]

/-! ## The handlers -/

/-- Route `GET /getMeals` (lines 35-43). -/
def getMeals (d : Disk) : Response :=
  match parseFile d.MEALS_FILE with
  | some meals => resJson (.arr meals)
  | none => resStatusJson 500 (.arr [])

/-- Route `POST /addMeal` (lines 46-55).  The array read from the file, with
the new entry pushed, is written by `JSON.stringify`.  The template literal of
the log line converts `meal` to a string after the file has been written. -/
def addMeal (d : Disk) (meal calories : Option Parsed) : Response × Disk :=
  match meal with
  | none => (resStatusJson 400 (errorBody "Meal name required"), d)
  | some m =>
    if truthy (some m) then
      match parseFile d.MEALS_FILE with
      | none => (uncaught, d)
      | some meals =>
        let d1 : Disk :=
          { d with MEALS_FILE :=
              .holds (meals ++ [stringify (.obj [("name", m), ("calories", orNull calories)])]) }
        if toStringThrows m then (uncaught, d1) else (resJson successBody, d1)
    else (resStatusJson 400 (errorBody "Meal name required"), d)

/-- The integer that `splice` makes of a start index `q` with `0 ≤ q`. -/
def toIntegerIndex (q : ℚ) : Nat := (Rat.floor q).toNat

/-- Evaluating the log line of `deleteMeal`, which reads `deleted.name` and
converts it to a string, throws: `deleted` is `null` (or `undefined`), or the
conversion of its `name` throws. -/
def deletedLogThrows : Option Json → Bool
  | none => true
  | some .null => true
  | some (.obj kvs) =>
    match ownGet kvs "name" with
    | some v => toStringThrows v
    | none => false
  | some _ => false

/-- Route `DELETE /deleteMeal` (lines 58-75).  Neither `NaN` nor an infinity
passes the test `index >= 0 && index < meals.length`. -/
def deleteMeal (js : Builtins) (d : Disk) (index : Option Parsed) : Response × Disk :=
  match index with
  | none => (resStatusJson 400 (errorBody "Index required"), d)
  | some idx =>
    match parseFile d.MEALS_FILE with
    | none => (resStatusJson 500 (errorBody "Failed to delete meal"), d)
    | some meals =>
      match toNumber js idx with
      | .throws => (resStatusJson 500 (errorBody "Failed to delete meal"), d)
      | .notFinite => (resStatusJson 400 (errorBody "Invalid index"), d)
      | .finite q =>
        if 0 ≤ q ∧ q < (meals.length : ℚ) then
          let start := toIntegerIndex q
          let deleted := meals[start]?
          let d1 : Disk := { d with MEALS_FILE := .holds (meals.eraseIdx start) }
          if deletedLogThrows deleted then
            (resStatusJson 500 (errorBody "Failed to delete meal"), d1)
          else (resJson successBody, d1)
        else (resStatusJson 400 (errorBody "Invalid index"), d)

/-- Route `DELETE /clearMeals` (lines 78-87). -/
def clearMeals (d : Disk) : Response × Disk :=
  (resJson successBody, { d with MEALS_FILE := .holds [] })

/-- The body `{ found: true, calories: v }` as `res.json` sends it: a function
is left out, and `Object.prototype` has no enumerable property. -/
def foundBody : JSVal → Json
  | .undefined => .obj [("found", .bool true)]
  | .function => .obj [("found", .bool true)]
  | .json v => .obj [("found", .bool true), ("calories", v)]
  | .objectPrototype => .obj [("found", .bool true), ("calories", .obj [])]

/-- Route `GET /lookupCalories/:meal` (lines 90-97); `meal` is
`req.params.meal`. -/
def lookupCalories (js : Builtins) (d : Disk) (meal : String) : Response :=
  match js.decodeURIComponent meal with
  | none => uncaught
  | some name =>
    let mealKey := js.toLowerCase name
    let db := loadCalDB d
    match getProp db mealKey with
    | .undefined => resJson (.obj [("found", .bool false)])
    | v => resJson (foundBody v)

/-- Route `POST /addCalEntry` (lines 100-110).  A key that passes the test but
is not a string has no method `toLowerCase`. -/
def addCalEntry (js : Builtins) (d : Disk) (key calories : Option Parsed) :
    Response × Disk :=
  if !truthy key || !isNumber calories then
    (resStatusJson 400 (errorBody "Invalid input"), d)
  else
    match key, calories with
    | some (.str k), some (.num c) =>
      let db := setProp (loadCalDB d) (js.toLowerCase k) c
      (resJson successBody, { d with CAL_FILE := .holds db })
    | _, _ => (uncaught, d)

/-! ## Runs of the server -/

/-- A request to one of the six routes, with the fields its handler reads. -/
inductive Request where
  | getMeals
  | addMeal (meal calories : Option Parsed)
  | deleteMeal (index : Option Parsed)
  | clearMeals
  | lookupCalories (meal : String)
  | addCalEntry (key calories : Option Parsed)

/-- Serve one request. -/
def step (js : Builtins) (d : Disk) : Request → Response × Disk
  | .getMeals => (getMeals d, d)
  | .addMeal meal calories => addMeal d meal calories
  | .deleteMeal index => deleteMeal js d index
  | .clearMeals => clearMeals d
  | .lookupCalories meal => (lookupCalories js d meal, d)
  | .addCalEntry key calories => addCalEntry js d key calories

/-- The files after serving the requests in order. -/
def run (js : Builtins) (d : Disk) : List Request → Disk
  | [] => d
  | r :: rs => run js (step js d r).2 rs

/-- The keys of the persisted calorie mapping. -/
def calKeys (d : Disk) : List String :=
  match d.CAL_FILE with
  | .holds db => ownKeys db
  | _ => []

/-! ## Built-ins on plain text -/

/-- Lower-casing of the letters A to Z. -/
def asciiLower (s : String) : String := String.mk (s.data.map Char.toLower)

/-- Built-ins for concrete evaluations.  They agree with the runtime on ASCII
text without a percent sign; no evaluation below converts a string or an array
to a number. -/
def plainBuiltins : Builtins where
  toLowerCase := asciiLower
  decodeURIComponent := fun s => if s.data.contains '%' then none else some s
  toNumber := fun _ => none

/-! ## Sample data and the invariant -/

/-- Two stored meals, for concrete evaluations. -/
def twoMeals : List Json :=
  [.obj [("name", .str "Oats"), ("calories", .num 150)],
   .obj [("name", .str "Banana"), ("calories", .null)]]

/-- The empty files that the server creates when it finds none. -/
def freshDisk : Disk := ensureFiles ⟨.absent, .absent⟩

/-- A run that stores "Banana" and "EGG" among requests to the other
handlers, for a concrete evaluation. -/
def sampleRun : List Request :=
  [.addCalEntry (some (.str "Banana")) (some (.num (.finite 105))),
   .clearMeals,
   .addMeal (some (.str "Oats")) none,
   .addCalEntry (some (.str "EGG")) (some (.num (.finite 78))),
   .deleteMeal (some (.num (.finite 0))),
   .lookupCalories "egg",
   .getMeals]

/-- Every key of the persisted calorie mapping is its own lower-cased form. -/
def LowerKeys (js : Builtins) (d : Disk) : Prop :=
  ∀ k ∈ calKeys d, js.toLowerCase k = k

/-! ## Lemmas on objects and indices -/

theorem ownGet_ownSet_self (o : Obj) (k : String) (v : Json) :
    ownGet (ownSet o k v) k = some v := by
  induction o with
  | nil => simp [ownSet, ownGet]
  | cons p rest ih =>
    obtain ⟨k1, v1⟩ := p
    by_cases h : k1 = k
    · simp [ownSet, ownGet, h]
    · simp [ownSet, ownGet, h, ih]

theorem ownGet_ownSet_ne (o : Obj) (k k2 : String) (v : Json) (h : k2 ≠ k) :
    ownGet (ownSet o k v) k2 = ownGet o k2 := by
  induction o with
  | nil => simp [ownSet, ownGet, Ne.symm h]
  | cons p rest ih =>
    obtain ⟨k1, v1⟩ := p
    by_cases h1 : k1 = k
    · subst h1
      simp [ownSet, ownGet, Ne.symm h]
    · by_cases h2 : k1 = k2
      · subst h2
        simp [ownSet, ownGet, h1]
      · simp [ownSet, ownGet, h1, h2, ih]

theorem mem_ownKeys_ownSet (o : Obj) (k k2 : String) (v : Json)
    (h : k2 ∈ ownKeys (ownSet o k v)) : k2 = k ∨ k2 ∈ ownKeys o := by
  induction o with
  | nil => simpa [ownSet, ownKeys] using h
  | cons p rest ih =>
    obtain ⟨k1, v1⟩ := p
    by_cases h1 : k1 = k
    · simp [ownSet, ownKeys, h1] at h
      simp [ownKeys, h1]
      tauto
    · simp [ownSet, ownKeys, h1] at h
      rcases h with h | h
      · simp [ownKeys, h]
      · have := ih (by simpa [ownKeys] using h)
        simp [ownKeys] at this ⊢
        tauto

theorem mem_ownKeys_setProp (o : Obj) (k k2 : String) (c : Number)
    (h : k2 ∈ ownKeys (setProp o k c)) : k2 = k ∨ k2 ∈ ownKeys o := by
  unfold setProp at h
  split at h
  · exact mem_ownKeys_ownSet o k k2 _ h
  · split at h
    · exact Or.inr h
    · exact mem_ownKeys_ownSet o k k2 _ h

theorem getProp_setProp_ne (o : Obj) (k k2 : String) (c : Number) (h : k2 ≠ k) :
    getProp (setProp o k c) k2 = getProp o k2 := by
  have hown : ownGet (setProp o k c) k2 = ownGet o k2 := by
    unfold setProp
    split
    · exact ownGet_ownSet_ne o k k2 _ h
    · split
      · rfl
      · exact ownGet_ownSet_ne o k k2 _ h
  simp [getProp, hown]

mutual
theorem stringify_lift : ∀ v : Json, stringify (lift v) = v
  | .null => rfl
  | .bool _ => rfl
  | .num _ => rfl
  | .str _ => rfl
  | .arr xs => by simp [lift, stringify, stringifyList_liftList xs]
  | .obj kvs => by simp [lift, stringify, stringifyFields_liftFields kvs]
theorem stringifyList_liftList : ∀ xs : List Json, stringifyList (liftList xs) = xs
  | [] => rfl
  | x :: xs => by
    simp [liftList, stringifyList, stringify_lift x, stringifyList_liftList xs]
theorem stringifyFields_liftFields :
    ∀ kvs : List (String × Json), stringifyFields (liftFields kvs) = kvs
  | [] => rfl
  | (k, v) :: kvs => by
    simp [liftFields, stringifyFields, stringify_lift v, stringifyFields_liftFields kvs]
end

theorem lift_ne_infinite (v : Json) (b : Bool) : lift v ≠ .num (.infinite b) := by
  cases v <;> simp [lift]

theorem toIntegerIndex_natCast (i : Nat) : toIntegerIndex (i : ℚ) = i := by
  have h : Rat.floor (i : ℚ) = ⌊(i : ℚ)⌋ := rfl
  simp [toIntegerIndex, h]

/-! ## Deleting a meal -/

/-- C1, as stated, fails: with the meal file holding the valid JSON array
`[null]`, deleting at index 0 removes the element and then answers 500
"Failed to delete meal", because the log line reads `deleted.name` of `null`. -/
theorem deleteMeal_null_element_500 :
    deleteMeal plainBuiltins ⟨.holds [Value.null], .holds []⟩ (some (.num (.finite 0)))
        = (resStatusJson 500 (errorBody "Failed to delete meal"), ⟨.holds [], .holds []⟩)
      ∧ (deleteMeal plainBuiltins ⟨.holds [Value.null], .holds []⟩ (some (.num (.finite 0)))).1.status
          ≠ (resJson successBody).status := by
  constructor
  · rfl
  · decide

/-- C1 (amended): when the meal file holds the array `M`, `i` is an integer
with `0 ≤ i < length M`, and the log line can print the name of the element at
position `i` (that element is not `null`, and converting its `name` to a string
does not throw, as for every entry whose name is a string), `deleteMeal`
answers 200 `{success: true}` and stores exactly `M` without its element at
position `i`: one element fewer, the elements before `i` in place, the later
ones moved down by one. -/
theorem deleteMeal_valid_index (js : Builtins) (d : Disk) (M : List Json) (i : Nat)
    (hM : d.MEALS_FILE = .holds M) (hi : i < M.length)
    (hlog : deletedLogThrows M[i]? = false) :
    deleteMeal js d (some (.num (.finite (i : ℚ))))
        = (⟨200, .json (.obj [("success", .bool true)])⟩,
           { d with MEALS_FILE := .holds (M.eraseIdx i) })
      ∧ (M.eraseIdx i).length = M.length - 1
      ∧ (∀ j, j < i → (M.eraseIdx i)[j]? = M[j]?)
      ∧ (∀ j, i ≤ j → (M.eraseIdx i)[j]? = M[j + 1]?) := by
  have hcond : (0 : ℚ) ≤ (i : ℚ) ∧ (i : ℚ) < (M.length : ℚ) :=
    ⟨Nat.cast_nonneg i, by exact_mod_cast hi⟩
  refine ⟨?_, List.length_eraseIdx_of_lt hi, ?_, ?_⟩
  · simp only [deleteMeal, hM, parseFile, toNumber, toIntegerIndex_natCast]
    rw [if_pos hcond, hlog]
    rfl
  · intro j hj
    exact List.getElem?_eraseIdx_of_lt M i j hj
  · intro j hj
    exact List.getElem?_eraseIdx_of_ge M i j hj

/-- Instance of `deleteMeal_valid_index`: deleting meal 0 of two stored meals
leaves the second one. -/
theorem deleteMeal_valid_index_witness :
    deleteMeal plainBuiltins ⟨.holds twoMeals, .holds []⟩ (some (.num (.finite ((0 : Nat) : ℚ))))
      = (⟨200, .json (.obj [("success", .bool true)])⟩,
         ⟨.holds (twoMeals.eraseIdx 0), .holds []⟩) :=
  (deleteMeal_valid_index plainBuiltins ⟨.holds twoMeals, .holds []⟩ twoMeals 0
    rfl (by decide) rfl).1

/-- C2: when the meal file holds the array `M` and the index is a number that
is negative or at least `length M`, `deleteMeal` answers 400
`{error: "Invalid index"}` and leaves both files as they were. -/
theorem deleteMeal_out_of_range (js : Builtins) (d : Disk) (M : List Json) (q : ℚ)
    (hM : d.MEALS_FILE = .holds M) (hq : q < 0 ∨ (M.length : ℚ) ≤ q) :
    deleteMeal js d (some (.num (.finite q)))
      = (⟨400, .json (.obj [("error", .str "Invalid index")])⟩, d) := by
  have hcond : ¬ ((0 : ℚ) ≤ q ∧ q < (M.length : ℚ)) := by
    rintro ⟨h0, h1⟩
    rcases hq with h | h
    · exact absurd h0 (not_le.mpr h)
    · exact absurd h1 (not_lt.mpr h)
  simp only [deleteMeal, hM, parseFile, toNumber]
  rw [if_neg hcond]
  rfl

/-- Instance of `deleteMeal_out_of_range`: index 5 when two meals are stored. -/
theorem deleteMeal_out_of_range_witness :
    deleteMeal plainBuiltins ⟨.holds twoMeals, .holds []⟩ (some (.num (.finite 5)))
      = (⟨400, .json (.obj [("error", .str "Invalid index")])⟩, ⟨.holds twoMeals, .holds []⟩) :=
  deleteMeal_out_of_range plainBuiltins ⟨.holds twoMeals, .holds []⟩ twoMeals 5 rfl
    (Or.inr (by simp [twoMeals]; norm_num))

/-! ## Adding and listing meals -/

theorem addMeal_valid (d : Disk) (M : List Json) (n : String) (c : Option Parsed)
    (hM : d.MEALS_FILE = .holds M) (hn : n ≠ "") :
    addMeal d (some (.str n)) c
      = (resJson successBody,
         { d with MEALS_FILE :=
            .holds (M ++ [.obj [("name", .str n), ("calories", stringify (orNull c))]]) }) := by
  simp [addMeal, truthy, hn, hM, parseFile, toStringThrows, stringify, stringifyFields]

/-- C3, as stated, fails at a calories literal beyond the range of a double,
such as `1e400`: it reaches the handler as `Infinity`, which is a number,
`addMeal` answers 200 `{success: true}`, `JSON.stringify` writes `null`, and
`getMeals` lists the entry with calories `null`, although a calories value was
sent; no value that `getMeals` can list is the number that was sent. -/
theorem addMeal_infinite_calories_null :
    isNumber (some (.num (.infinite false))) = true
      ∧ (addMeal freshDisk (some (.str "Feast")) (some (.num (.infinite false)))).1
        = ⟨200, .json (.obj [("success", .bool true)])⟩
      ∧ getMeals (addMeal freshDisk (some (.str "Feast")) (some (.num (.infinite false)))).2
        = ⟨200, .json (.arr [.obj [("name", .str "Feast"), ("calories", .null)]])⟩
      ∧ ¬ ∃ v : Json, lift v = .num (.infinite false) :=
  ⟨rfl, rfl, rfl, fun ⟨v, hv⟩ => lift_ne_infinite v false hv⟩

/-- C3 (amended): when the meal file holds the array `M`, `addMeal` with a
non-empty string `n` as name and an optional calories value `c` whose numbers
are all finite answers 200 `{success: true}`, and `getMeals` then answers 200
with `M` followed by the entry `{name: n, calories: c}` (`null` for an absent
`c`): its length is `length M + 1`, its first `length M` elements are `M`, its
last element is the entry. -/
theorem addMeal_then_getMeals (d : Disk) (M : List Json) (n : String) (c : Option Json)
    (hM : d.MEALS_FILE = .holds M) (hn : n ≠ "") :
    (addMeal d (some (.str n)) (c.map lift)).1 = ⟨200, .json (.obj [("success", .bool true)])⟩
      ∧ ∃ out : List Json,
          getMeals (addMeal d (some (.str n)) (c.map lift)).2 = ⟨200, .json (.arr out)⟩
          ∧ out = M ++ [.obj [("name", .str n), ("calories", c.getD .null)]]
          ∧ out.length = M.length + 1
          ∧ out.take M.length = M
          ∧ out.getLast? = some (.obj [("name", .str n), ("calories", c.getD .null)]) := by
  have hc : stringify (orNull (c.map lift)) = c.getD .null := by
    cases c with
    | none => rfl
    | some v => exact stringify_lift v
  have hadd := addMeal_valid d M n (c.map lift) hM hn
  rw [hc] at hadd
  refine ⟨by rw [hadd]; rfl, M ++ [.obj [("name", .str n), ("calories", c.getD .null)]], ?_,
    rfl, by simp, by simp, by simp⟩
  rw [hadd]
  rfl

/-- Instance of `addMeal_then_getMeals`: adding "Apple" with 95 calories to two
stored meals. -/
theorem addMeal_then_getMeals_witness :
    (addMeal ⟨.holds twoMeals, .holds []⟩ (some (.str "Apple"))
        (some (.num (.finite 95)))).1
        = ⟨200, .json (.obj [("success", .bool true)])⟩
      ∧ ∃ out : List Json,
          getMeals (addMeal ⟨.holds twoMeals, .holds []⟩ (some (.str "Apple"))
              (some (.num (.finite 95)))).2
            = ⟨200, .json (.arr out)⟩
          ∧ out = twoMeals ++ [.obj [("name", .str "Apple"), ("calories", .num 95)]]
          ∧ out.length = twoMeals.length + 1
          ∧ out.take twoMeals.length = twoMeals
          ∧ out.getLast? = some (.obj [("name", .str "Apple"), ("calories", .num 95)]) :=
  addMeal_then_getMeals ⟨.holds twoMeals, .holds []⟩ twoMeals "Apple" (some (.num 95))
    rfl (by decide)

/-- C4: `addMeal` with the field `meal` absent, or the empty string, answers
400 `{error: "Meal name required"}` whatever the calories field, and leaves
both files as they were, whatever they hold. -/
theorem addMeal_name_required (d : Disk) (c : Option Parsed) :
    addMeal d none c = (⟨400, .json (.obj [("error", .str "Meal name required")])⟩, d)
      ∧ addMeal d (some (.str "")) c
          = (⟨400, .json (.obj [("error", .str "Meal name required")])⟩, d) := by
  constructor
  · rfl
  · simp [addMeal, truthy]
    rfl

/-- C8: whatever the meal file holds (an array of any length, unparsable text,
or nothing), `clearMeals` answers 200 `{success: true}` and `getMeals` then
answers 200 with the empty array. -/
theorem clearMeals_then_getMeals (d : Disk) :
    (clearMeals d).1 = ⟨200, .json (.obj [("success", .bool true)])⟩
      ∧ getMeals (clearMeals d).2 = ⟨200, .json (.arr [])⟩ :=
  ⟨rfl, rfl⟩

/-! ## The calorie mapping -/

theorem getProp_setProp_self (o : Obj) (k : String) (c : Number) (h : k ≠ "__proto__") :
    getProp (setProp o k c) k = .json (stringify (.num c)) := by
  have hown : ownGet (setProp o k c) k = some (stringify (.num c)) := by
    unfold setProp
    split
    · exact ownGet_ownSet_self o k _
    · rw [if_neg h]
      exact ownGet_ownSet_self o k _
  simp [getProp, hown]

theorem addCalEntry_valid (js : Builtins) (d : Disk) (k : String) (c : Number)
    (hk : k ≠ "") :
    addCalEntry js d (some (.str k)) (some (.num c))
      = (resJson successBody,
         { d with CAL_FILE := .holds (setProp (loadCalDB d) (js.toLowerCase k) c) }) := by
  simp [addCalEntry, truthy, isNumber, hk]

theorem char_toLower_idem (c : Char) : c.toLower.toLower = c.toLower := by
  by_cases h : c.toNat ≥ 65 ∧ c.toNat ≤ 90
  · have hc : c = Char.ofNat c.toNat := (Char.ofNat_toNat c).symm
    obtain ⟨h1, h2⟩ := h
    generalize c.toNat = n at hc h1 h2
    subst hc
    interval_cases n <;> decide
  · have hfix : c.toLower = c := by
      unfold Char.toLower
      simp only [h, if_false]
    rw [hfix, hfix]

theorem asciiLower_idem (s : String) : asciiLower (asciiLower s) = asciiLower s := by
  have hcomp : Char.toLower ∘ Char.toLower = Char.toLower :=
    funext char_toLower_idem
  simp [asciiLower, hcomp]

/-- C5, as stated, fails at the key `__proto__`: on the fresh files the entry
`{key: "__proto__", calories: 105}` is accepted with 200 `{success: true}`, the
assignment `db["__proto__"] = 105` reaches the setter of `Object.prototype`
and stores nothing, and the lookup of `__proto__` then reads
`Object.prototype` back and answers `{found: true, calories: {}}`. -/
theorem addCalEntry_proto_then_lookup :
    (addCalEntry plainBuiltins freshDisk (some (.str "__proto__")) (some (.num (.finite 105)))).1
        = ⟨200, .json (.obj [("success", .bool true)])⟩
      ∧ (addCalEntry plainBuiltins freshDisk (some (.str "__proto__")) (some (.num (.finite 105)))).2
        = freshDisk
      ∧ lookupCalories plainBuiltins
          (addCalEntry plainBuiltins freshDisk (some (.str "__proto__")) (some (.num (.finite 105)))).2
          "__proto__"
        = ⟨200, .json (.obj [("found", .bool true), ("calories", .obj [])])⟩ :=
  ⟨rfl, rfl, rfl⟩

/-- Storing then looking up, away from `__proto__`: after `addCalEntry` with a
non-empty string key `k` and a number `c`, the lookup of any name whose
lower-cased form is that of `k` answers `{found: true, calories: c}`, provided
the lower-cased key is not `__proto__`. -/
theorem addCalEntry_then_lookup (js : Builtins) (d : Disk) (k : String) (c : ℚ)
    (p name : String) (hk : k ≠ "") (hdec : js.decodeURIComponent p = some name)
    (heq : js.toLowerCase name = js.toLowerCase k)
    (hproto : js.toLowerCase k ≠ "__proto__") :
    (addCalEntry js d (some (.str k)) (some (.num (.finite c)))).1 = resJson successBody
      ∧ lookupCalories js (addCalEntry js d (some (.str k)) (some (.num (.finite c)))).2 p
          = resJson (.obj [("found", .bool true), ("calories", .num c)]) := by
  rw [addCalEntry_valid js d k (.finite c) hk]
  refine ⟨rfl, ?_⟩
  simp only [lookupCalories, hdec, heq, loadCalDB, parseFile,
    getProp_setProp_self _ _ (.finite c) hproto]
  rfl

/-- Instance of `addCalEntry_then_lookup`: "Banana" stored with 105 is found
under "banana". -/
theorem addCalEntry_then_lookup_banana :
    lookupCalories plainBuiltins
        (addCalEntry plainBuiltins freshDisk (some (.str "Banana")) (some (.num (.finite 105)))).2
        "banana"
      = resJson (.obj [("found", .bool true), ("calories", .num 105)]) :=
  (addCalEntry_then_lookup plainBuiltins freshDisk "Banana" 105 "banana" "banana"
    (by decide) rfl (by decide) (by decide)).2

/-- C6, as stated, fails at the name `constructor`: on the fresh, empty calorie
file, where no key was ever added, the lookup reads the inherited property
`Object.prototype.constructor`, which is not `undefined`, and answers
`{found: true}` (the function is left out of the JSON text). -/
theorem lookupCalories_constructor_found :
    freshDisk.CAL_FILE = .holds []
      ∧ lookupCalories plainBuiltins freshDisk "constructor"
        = ⟨200, .json (.obj [("found", .bool true)])⟩ :=
  ⟨rfl, rfl⟩

/-- Lookup of an unknown name, away from `Object.prototype`: whatever the
calorie file holds, a name that decodes and whose lower-cased form is neither
a key of the loaded mapping nor a property of `Object.prototype` is answered
200 `{found: false}`. -/
theorem lookupCalories_unknown (js : Builtins) (d : Disk) (p name : String)
    (hdec : js.decodeURIComponent p = some name)
    (hown : ownGet (loadCalDB d) (js.toLowerCase name) = none)
    (hproto : js.toLowerCase name ≠ "__proto__")
    (hmeth : js.toLowerCase name ∉ objectPrototypeMethods) :
    lookupCalories js d p = ⟨200, .json (.obj [("found", .bool false)])⟩ := by
  simp only [lookupCalories, hdec, getProp, hown, if_neg hproto, if_neg hmeth]
  rfl

/-- A name that `decodeURIComponent` rejects leaves the lookup handler as an
exception, which the framework answers with status 500. -/
theorem lookupCalories_undecodable (js : Builtins) (d : Disk) (p : String)
    (hdec : js.decodeURIComponent p = none) : lookupCalories js d p = uncaught := by
  simp only [lookupCalories, hdec]

/-- C7: `addCalEntry` with the key absent or empty, or with a calories field
that is not a number, answers 400 `{error: "Invalid input"}` and leaves both
files as they were; with a non-empty string key and a number it answers 200
`{success: true}`, whatever the calorie file holds. -/
theorem addCalEntry_validates (js : Builtins) (d : Disk) (key calories : Option Parsed) :
    ((key = none ∨ key = some (.str "") ∨ (∀ q, calories ≠ some (.num q))) →
        addCalEntry js d key calories
          = (⟨400, .json (.obj [("error", .str "Invalid input")])⟩, d))
      ∧ (∀ k c, k ≠ "" → key = some (.str k) → calories = some (.num c) →
          (addCalEntry js d key calories).1
            = ⟨200, .json (.obj [("success", .bool true)])⟩) := by
  constructor
  · intro h
    have hcond : (!truthy key || !isNumber calories) = true := by
      rcases h with h | h | h
      · simp [h, truthy]
      · simp [h, truthy]
      · have hn : isNumber calories = false := by
          cases calories with
          | none => rfl
          | some v =>
            cases v with
            | num q => exact absurd rfl (h q)
            | _ => rfl
        simp [hn]
    unfold addCalEntry
    rw [if_pos hcond]
    rfl
  · intro k c hk hkey hcal
    subst hkey hcal
    rw [addCalEntry_valid js d k c hk]
    rfl

/-- Instance of `addCalEntry_validates`: the string "105" as calories is
refused, the number 105 is accepted. -/
theorem addCalEntry_validates_witness :
    addCalEntry plainBuiltins freshDisk (some (.str "Banana")) (some (.str "105"))
        = (⟨400, .json (.obj [("error", .str "Invalid input")])⟩, freshDisk)
      ∧ (addCalEntry plainBuiltins freshDisk (some (.str "Banana")) (some (.num (.finite 105)))).1
        = ⟨200, .json (.obj [("success", .bool true)])⟩ :=
  ⟨(addCalEntry_validates plainBuiltins freshDisk (some (.str "Banana"))
      (some (.str "105"))).1 (Or.inr (Or.inr (fun _ h => by cases h))),
   (addCalEntry_validates plainBuiltins freshDisk (some (.str "Banana"))
      (some (.num (.finite 105)))).2 "Banana" (.finite 105) (by decide) rfl rfl⟩

/-! ## Frame and invariant of the calorie file -/

theorem addMeal_CAL_FILE (d : Disk) (meal calories : Option Parsed) :
    (addMeal d meal calories).2.CAL_FILE = d.CAL_FILE := by
  unfold addMeal
  split
  · rfl
  · split
    · split
      · rfl
      · split <;> rfl
    · rfl

theorem deleteMeal_CAL_FILE (js : Builtins) (d : Disk) (index : Option Parsed) :
    (deleteMeal js d index).2.CAL_FILE = d.CAL_FILE := by
  unfold deleteMeal
  split
  · rfl
  · split
    · rfl
    · split
      · rfl
      · rfl
      · split
        · dsimp only
          split <;> rfl
        · rfl

theorem addCalEntry_MEALS_FILE (js : Builtins) (d : Disk) (key calories : Option Parsed) :
    (addCalEntry js d key calories).2.MEALS_FILE = d.MEALS_FILE := by
  unfold addCalEntry
  split
  · rfl
  · split <;> rfl

theorem lowerKeys_of_CAL_FILE (js : Builtins) (d d1 : Disk)
    (h : d1.CAL_FILE = d.CAL_FILE) (hd : LowerKeys js d) : LowerKeys js d1 := by
  intro k hk
  apply hd
  simpa [calKeys, h] using hk

theorem mem_ownKeys_loadCalDB (d : Disk) (k : String) (h : k ∈ ownKeys (loadCalDB d)) :
    k ∈ calKeys d := by
  unfold loadCalDB parseFile at h
  unfold calKeys
  cases hf : d.CAL_FILE with
  | absent => simp [hf, ownKeys] at h
  | garbage => simp [hf, ownKeys] at h
  | holds db => simpa [hf] using h

theorem addCalEntry_lowerKeys (js : Builtins)
    (hidem : ∀ s, js.toLowerCase (js.toLowerCase s) = js.toLowerCase s)
    (d : Disk) (key calories : Option Parsed) (hd : LowerKeys js d) :
    LowerKeys js (addCalEntry js d key calories).2 := by
  unfold addCalEntry
  split
  · exact hd
  · split
    · intro k2 hk2
      simp only [calKeys] at hk2
      rcases mem_ownKeys_setProp _ _ _ _ hk2 with h | h
      · rw [h]
        exact hidem _
      · exact hd k2 (mem_ownKeys_loadCalDB d k2 h)
    · exact hd

theorem step_lowerKeys (js : Builtins)
    (hidem : ∀ s, js.toLowerCase (js.toLowerCase s) = js.toLowerCase s)
    (d : Disk) (r : Request) (hd : LowerKeys js d) : LowerKeys js (step js d r).2 := by
  cases r with
  | getMeals => exact hd
  | addMeal meal calories =>
    exact lowerKeys_of_CAL_FILE js d _ (addMeal_CAL_FILE d meal calories) hd
  | deleteMeal index =>
    exact lowerKeys_of_CAL_FILE js d _ (deleteMeal_CAL_FILE js d index) hd
  | clearMeals => exact lowerKeys_of_CAL_FILE js d _ rfl hd
  | lookupCalories meal => exact hd
  | addCalEntry key calories => exact addCalEntry_lowerKeys js hidem d key calories hd

theorem run_lowerKeys (js : Builtins)
    (hidem : ∀ s, js.toLowerCase (js.toLowerCase s) = js.toLowerCase s)
    (rs : List Request) : ∀ d : Disk, LowerKeys js d → LowerKeys js (run js d rs) := by
  induction rs with
  | nil => intro d hd; exact hd
  | cons r rs ih => intro d hd; exact ih _ (step_lowerKeys js hidem d r hd)

/-- C9: when lower-casing is idempotent, and the server starts without a
calorie file (so that it creates the empty mapping), then after any finite
sequence of requests to the six handlers every key of the persisted calorie
mapping equals its own lower-cased form. -/
theorem calKeys_lowercase (js : Builtins)
    (hidem : ∀ s, js.toLowerCase (js.toLowerCase s) = js.toLowerCase s)
    (d0 : Disk) (h0 : d0.CAL_FILE = .absent) (rs : List Request) :
    ∀ k ∈ calKeys (run js (ensureFiles d0) rs), js.toLowerCase k = k := by
  apply run_lowerKeys js hidem rs
  intro k hk
  simp [calKeys, ensureFiles, h0, ownKeys] at hk

/-- Instance of `calKeys_lowercase`: after `sampleRun` the keys are "banana" and
"egg", each its own lower-cased form. -/
theorem calKeys_lowercase_witness :
    calKeys (run plainBuiltins (ensureFiles ⟨.garbage, .absent⟩) sampleRun)
        = ["banana", "egg"]
      ∧ plainBuiltins.toLowerCase "banana" = "banana"
      ∧ plainBuiltins.toLowerCase "egg" = "egg" :=
  ⟨rfl,
   calKeys_lowercase plainBuiltins asciiLower_idem ⟨.garbage, .absent⟩ rfl sampleRun
     "banana" (by decide),
   calKeys_lowercase plainBuiltins asciiLower_idem ⟨.garbage, .absent⟩ rfl sampleRun
     "egg" (by decide)⟩

/-- C10: whatever the files hold, after `addCalEntry` with a string key `k` and
a number `c`, the lookup of a name whose lower-cased form differs from that of
`k` is answered as it was before the add; and the meal file is unchanged. -/
theorem addCalEntry_frame (js : Builtins) (d : Disk) (k : String) (c : Number)
    (p name : String) (hdec : js.decodeURIComponent p = some name)
    (hne : js.toLowerCase name ≠ js.toLowerCase k) :
    lookupCalories js (addCalEntry js d (some (.str k)) (some (.num c))).2 p
        = lookupCalories js d p
      ∧ (addCalEntry js d (some (.str k)) (some (.num c))).2.MEALS_FILE = d.MEALS_FILE := by
  refine ⟨?_, addCalEntry_MEALS_FILE js d _ _⟩
  by_cases hk : k = ""
  · subst hk
    simp [addCalEntry, truthy]
  · rw [addCalEntry_valid js d k c hk]
    simp only [lookupCalories, hdec, loadCalDB, parseFile,
      getProp_setProp_ne _ _ _ c hne]

/-- Instance of `addCalEntry_frame`: storing "Banana" changes neither the
lookup of "egg" nor the meal file. -/
theorem addCalEntry_frame_witness :
    lookupCalories plainBuiltins
        (addCalEntry plainBuiltins ⟨.holds twoMeals, .holds [("egg", .num 78)]⟩
          (some (.str "Banana")) (some (.num (.finite 105)))).2 "egg"
        = lookupCalories plainBuiltins ⟨.holds twoMeals, .holds [("egg", .num 78)]⟩ "egg"
      ∧ (addCalEntry plainBuiltins ⟨.holds twoMeals, .holds [("egg", .num 78)]⟩
          (some (.str "Banana")) (some (.num (.finite 105)))).2.MEALS_FILE
        = (⟨.holds twoMeals, .holds [("egg", .num 78)]⟩ : Disk).MEALS_FILE :=
  addCalEntry_frame plainBuiltins ⟨.holds twoMeals, .holds [("egg", .num 78)]⟩
    "Banana" (.finite 105) "egg" "egg" rfl (by decide)

end NutriSnap
